import Mathlib

/-!
Verification development for the fraud-consumer pipeline
(src/fraud-consumer/app/main.py of fraudstream-pipeline).

The Python source is shallowly embedded:
  * Python JSON values (as produced by json.loads) are the mutual
    inductive `Json`; json.loads / json.dumps are modelled by the
    executable codec `json_loads` / `json_dumps` below (the json module
    is the Python standard library, not repository code; the model
    follows its documented behaviour: insertion-ordered objects with
    last-duplicate-wins, default separators, ensure_ascii escaping).
  * Python floats are idealised as exact rationals (ℚ).
  * hashlib.sha256 is implemented bit-faithfully on byte lists, with
    machine words as Nat reduced mod 2^32.
  * The Postgres tables are lists of rows; `ON CONFLICT DO NOTHING`
    inserts skip when a row with the same txn_id value already exists.
  * External nondeterminism (OperationalError on a cursor.execute call,
    S3 put failure) is injected through explicit fault schedules.

Rational arithmetic is restored to its default reducibility so that
concrete runs of the embedded code can be evaluated by the kernel.
-/

attribute [local semireducible] Rat.add Rat.mul Rat.inv Rat.sub Rat.ofScientific

set_option maxRecDepth 40000

/-! JSON values as returned by Python `json.loads`: null, bool, number
(with a flag recording whether the literal was an int or a float),
string, array, and insertion-ordered object. -/
mutual
inductive Json where
  | null : Json
  | bool (b : Bool) : Json
  | num (isInt : Bool) (q : ℚ) : Json
  | str (s : String) : Json
  | arr (xs : JsonArr) : Json
  | obj (kvs : JsonObj) : Json
  deriving DecidableEq
inductive JsonArr where
  | nil : JsonArr
  | cons (hd : Json) (tl : JsonArr) : JsonArr
  deriving DecidableEq
inductive JsonObj where
  | nil : JsonObj
  | cons (k : String) (v : Json) (tl : JsonObj) : JsonObj
  deriving DecidableEq
end

/-- Key lookup in an object, first match (objects built by the parser
have unique keys). -/
def JsonObj.find : JsonObj → String → Option Json
  | .nil, _ => none
  | .cons k0 v0 tl, k => if k0 = k then some v0 else tl.find k

/-- Python `tx[k]` for a string key: succeeds only on a dict that has
the key (KeyError / TypeError otherwise, modelled as `none`). -/
def Json.lookup : Json → String → Option Json
  | .obj kvs, k => kvs.find k
  | _, _ => none

/-- Setting a key in an object: Python dict semantics (first insertion
position kept, value overwritten; new keys appended). -/
def JsonObj.set : JsonObj → String → Json → JsonObj
  | .nil, k, v => .cons k v .nil
  | .cons k0 v0 tl, k, v =>
      if k0 = k then .cons k0 v tl else .cons k0 v0 (tl.set k v)

/-! ## SHA-256 (hashlib.sha256), on byte lists, words as Nat mod 2^32 -/

def w32 (x : ℕ) : ℕ := x % 2 ^ 32

def rotr32 (n x : ℕ) : ℕ := w32 ((x >>> n) ||| (x <<< (32 - n)))

def not32 (x : ℕ) : ℕ := x ^^^ (2 ^ 32 - 1)

def bsig0 (x : ℕ) : ℕ := rotr32 2 x ^^^ rotr32 13 x ^^^ rotr32 22 x

def bsig1 (x : ℕ) : ℕ := rotr32 6 x ^^^ rotr32 11 x ^^^ rotr32 25 x

def ssig0 (x : ℕ) : ℕ := rotr32 7 x ^^^ rotr32 18 x ^^^ (x >>> 3)

def ssig1 (x : ℕ) : ℕ := rotr32 17 x ^^^ rotr32 19 x ^^^ (x >>> 10)

def chF (x y z : ℕ) : ℕ := (x &&& y) ^^^ (not32 x &&& z)

def majF (x y z : ℕ) : ℕ := (x &&& y) ^^^ (x &&& z) ^^^ (y &&& z)

def shaK : List ℕ :=
  [1116352408, 1899447441, 3049323471, 3921009573, 961987163, 1508970993,
   2453635748, 2870763221, 3624381080, 310598401, 607225278, 1426881987,
   1925078388, 2162078206, 2614888103, 3248222580, 3835390401, 4022224774,
   264347078, 604807628, 770255983, 1249150122, 1555081692, 1996064986,
   2554220882, 2821834349, 2952996808, 3210313671, 3336571891, 3584528711,
   113926993, 338241895, 666307205, 773529912, 1294757372, 1396182291,
   1695183700, 1986661051, 2177026350, 2456956037, 2730485921, 2820302411,
   3259730800, 3345764771, 3516065817, 3600352804, 4094571909, 275423344,
   430227734, 506948616, 659060556, 883997877, 958139571, 1322822218,
   1537002063, 1747873779, 1955562222, 2024104815, 2227730452, 2361852424,
   2428436474, 2756734187, 3204031479, 3329325298]

def shaH0 : List ℕ :=
  [1779033703, 3144134277, 1013904242, 2773480762,
   1359893119, 2600822924, 528734635, 1541459225]

/-- Big-endian byte expansion of a value, fixed width. -/
def beBytes : ℕ → ℕ → List ℕ
  | 0, _ => []
  | k + 1, v => beBytes k (v >>> 8) ++ [v % 256]

/-- SHA-256 padding: 0x80, zeros to 56 mod 64, 8-byte big-endian bit length. -/
def padMsg (msg : List ℕ) : List ℕ :=
  let L := msg.length
  let z := (119 - L % 64) % 64
  msg ++ [0x80] ++ List.replicate z 0 ++ beBytes 8 (8 * L)

/-- Group bytes into big-endian 32-bit words. -/
def toWords : List ℕ → List ℕ
  | b0 :: b1 :: b2 :: b3 :: rest =>
      (((b0 * 256 + b1) * 256 + b2) * 256 + b3) :: toWords rest
  | _ => []

/-- Split a word list into 16-word chunks (fuel-driven). -/
def toChunks : ℕ → List ℕ → List (List ℕ)
  | 0, _ => []
  | _, [] => []
  | f + 1, ws => ws.take 16 :: toChunks f (ws.drop 16)

/-- Extend the message schedule; `acc` holds the words most recent first. -/
def extSched : ℕ → List ℕ → List ℕ
  | 0, acc => acc
  | f + 1, acc =>
      extSched f
        (w32 (ssig1 (acc.getD 1 0) + acc.getD 6 0 + ssig0 (acc.getD 14 0) + acc.getD 15 0) :: acc)

def schedule (chunk : List ℕ) : List ℕ := (extSched 48 chunk.reverse).reverse

/-- One compression round on the 8-word state. -/
def shaRound (st : List ℕ) (kw : ℕ × ℕ) : List ℕ :=
  match st with
  | [a, b, c, d, e, f, g, hh] =>
      let t1 := w32 (hh + bsig1 e + chF e f g + kw.1 + kw.2)
      let t2 := w32 (bsig0 a + majF a b c)
      [w32 (t1 + t2), a, b, c, w32 (d + t1), e, f, g]
  | _ => st

def compressChunk (hs : List ℕ) (chunk : List ℕ) : List ℕ :=
  let st := ((shaK.zip (schedule chunk)).foldl shaRound hs)
  (hs.zip st).map (fun p => w32 (p.1 + p.2))

/-- The eight 32-bit digest words of SHA-256 of a byte list. -/
def sha256Words (msg : List ℕ) : List ℕ :=
  let ws := toWords (padMsg msg)
  (toChunks ws.length ws).foldl compressChunk shaH0

/-- The SHA-256 digest read as one big-endian natural number — exactly
Python's `int(hashlib.sha256(b).hexdigest(), 16)`. -/
def sha256Nat (msg : List ℕ) : ℕ :=
  (sha256Words msg).foldl (fun a w => a * 2 ^ 32 + w) 0

/-- UTF-8 encoding of one character (Python `str.encode()`). -/
def utf8Bytes (c : Char) : List ℕ :=
  let n := c.toNat
  if n < 0x80 then [n]
  else if n < 0x800 then [0xc0 ||| (n >>> 6), 0x80 ||| (n &&& 0x3f)]
  else if n < 0x10000 then
    [0xe0 ||| (n >>> 12), 0x80 ||| ((n >>> 6) &&& 0x3f), 0x80 ||| (n &&& 0x3f)]
  else
    [0xf0 ||| (n >>> 18), 0x80 ||| ((n >>> 12) &&& 0x3f),
     0x80 ||| ((n >>> 6) &&& 0x3f), 0x80 ||| (n &&& 0x3f)]

/-- Python `s.encode()`: UTF-8 bytes of a string. -/
def strBytes (s : String) : List ℕ := s.data.foldr (fun c acc => utf8Bytes c ++ acc) []

/-- FIPS 180-4 test vector: SHA-256 of the empty message. -/
theorem sha256_empty_vector :
    sha256Nat [] = 0xe3b0c44298fc1c149afbf4c8996fb92427ae41e4649b934ca495991b7852b855 := by
  rfl

/-- FIPS 180-4 test vector: SHA-256 of ASCII "abc". -/
theorem sha256_abc_vector :
    sha256Nat (strBytes "abc") =
      0xba7816bf8f01cfea414140de5dae2223b00361a396177a9cb410ff61f20015ad := by
  rfl

/-! ## The scorer (`score` in main.py) -/

/-- Python `MODEL_VERSION = os.getenv("MODEL_VERSION", "baseline")`; the model
uses the default. -/
def MODEL_VERSION : String := "baseline"

/-- A JSON value used as a Python number: ints/floats are numbers, and
Python bools are ints (True == 1). Anything else raises TypeError. -/
def jsonAsPyNumber : Json → Option ℚ
  | .num _ q => some q
  | .bool b => some (if b then 1 else 0)
  | _ => none

/-- Python `score(tx)` from main.py:
  h = int(sha256(tx["card_hash"].encode()).hexdigest(), 16) % 100
  base = tx["amount"] / 500.0
  return min(1.0, 0.3 * base + 0.7 * (h / 100.0))
`none` models the exception a missing `card_hash`/`amount` key or a
non-string `card_hash` / non-numeric `amount` raises. -/
def score (tx : Json) : Option ℚ :=
  match tx.lookup "card_hash", (tx.lookup "amount").bind jsonAsPyNumber with
  | some (.str ch), some a =>
      let h : ℕ := sha256Nat (strBytes ch) % 100
      some (min 1 ((3 : ℚ) / 10 * (a / 500) + 7 / 10 * ((h : ℚ) / 100)))
  | _, _ => none

/-! ## JSON codec: model of Python json.loads / json.dumps -/

def isWsChar (c : Char) : Bool := c = ' ' || c = '\t' || c = '\n' || c = '\r'

def skipWs : List Char → List Char
  | [] => []
  | c :: cs => if isWsChar c then skipWs cs else c :: cs

/-- Parse the remainder of a JSON string literal (opening quote already
consumed), handling the common escapes. -/
def parseStringChars : List Char → Option (List Char × List Char)
  | [] => none
  | c :: cs =>
    if c = '"' then some ([], cs)
    else if c = '\\' then
      match cs with
      | [] => none
      | e :: cs2 =>
        let dch : Option Char :=
          if e = '"' then some '"'
          else if e = '\\' then some '\\'
          else if e = '/' then some '/'
          else if e = 'n' then some '\n'
          else if e = 't' then some '\t'
          else if e = 'r' then some '\r'
          else none
        match dch, parseStringChars cs2 with
        | some d, some (s, rest) => some (d :: s, rest)
        | _, _ => none
    else
      match parseStringChars cs with
      | some (s, rest) => some (c :: s, rest)
      | none => none

def isDigitChar (c : Char) : Bool := '0' ≤ c && c ≤ '9'

def takeDigits : List Char → List ℕ × List Char
  | [] => ([], [])
  | c :: cs =>
    if isDigitChar c then
      let p := takeDigits cs
      ((c.toNat - 48) :: p.1, p.2)
    else ([], c :: cs)

def digitsVal (ds : List ℕ) : ℕ := ds.foldl (fun a d => a * 10 + d) 0

/-- Parse a JSON number literal, recording whether it was an integer
literal (no fraction, no exponent) — Python ints vs floats. -/
def parseNumber (cs : List Char) : Option (Json × List Char) :=
  let pm : Bool × List Char :=
    match cs with
    | c :: rest => if c = '-' then (true, rest) else (false, cs)
    | [] => (false, cs)
  let neg := pm.1
  let p1 := takeDigits pm.2
  if p1.1.isEmpty then none else
  let pf : Bool × List ℕ × List Char :=
    match p1.2 with
    | c :: rest =>
      if c = '.' then
        let p := takeDigits rest
        (true, p.1, p.2)
      else (false, [], p1.2)
    | [] => (false, [], p1.2)
  let hasFrac := pf.1
  if hasFrac && pf.2.1.isEmpty then none else
  let pe : Bool × Bool × List ℕ × List Char :=
    match pf.2.2 with
    | c :: rest =>
      if c = 'e' || c = 'E' then
        match rest with
        | s :: rest2 =>
          if s = '+' then
            let p := takeDigits rest2
            (true, false, p.1, p.2)
          else if s = '-' then
            let p := takeDigits rest2
            (true, true, p.1, p.2)
          else
            let p := takeDigits rest
            (true, false, p.1, p.2)
        | [] => (true, false, [], rest)
      else (false, false, [], pf.2.2)
    | [] => (false, false, [], pf.2.2)
  let hasExp := pe.1
  if hasExp && pe.2.2.1.isEmpty then none else
  let mant : ℚ := (digitsVal p1.1 : ℚ) + (digitsVal pf.2.1 : ℚ) / 10 ^ (pf.2.1).length
  let ev : ℤ := if pe.2.1 then -(digitsVal pe.2.2.1 : ℤ) else (digitsVal pe.2.2.1 : ℤ)
  let mag : ℚ := mant * 10 ^ ev
  some (Json.num (!hasFrac && !hasExp) (if neg then -mag else mag), pe.2.2.2)

mutual

/-- Fuel-driven recursive-descent JSON value parser. -/
def parseVal : ℕ → List Char → Option (Json × List Char)
  | 0, _ => none
  | fuel + 1, cs =>
    match skipWs cs with
    | [] => none
    | c :: rest =>
      if c = '\x7b' then
        match skipWs rest with
        | d :: rest2 =>
          if d = '\x7d' then some (.obj .nil, rest2)
          else parseMembers fuel .nil (d :: rest2)
        | [] => none
      else if c = '[' then
        match skipWs rest with
        | d :: rest2 =>
          if d = ']' then some (.arr .nil, rest2)
          else
            match parseElems fuel (d :: rest2) with
            | some (xs, r) => some (.arr xs, r)
            | none => none
        | [] => none
      else if c = '"' then
        match parseStringChars rest with
        | some (s, r) => some (.str (String.mk s), r)
        | none => none
      else if c = 't' then
        match rest with
        | 'r' :: 'u' :: 'e' :: r => some (.bool true, r)
        | _ => none
      else if c = 'f' then
        match rest with
        | 'a' :: 'l' :: 's' :: 'e' :: r => some (.bool false, r)
        | _ => none
      else if c = 'n' then
        match rest with
        | 'u' :: 'l' :: 'l' :: r => some (.null, r)
        | _ => none
      else parseNumber (c :: rest)
  termination_by structural fuel _ => fuel

/-- Parse object members; duplicate keys overwrite in place (Python dict). -/
def parseMembers : ℕ → JsonObj → List Char → Option (Json × List Char)
  | 0, _, _ => none
  | fuel + 1, acc, cs =>
    match skipWs cs with
    | '"' :: rest =>
      match parseStringChars rest with
      | some (ks, r1) =>
        match skipWs r1 with
        | ':' :: r2 =>
          match parseVal fuel r2 with
          | some (v, r3) =>
            match skipWs r3 with
            | ',' :: r4 => parseMembers fuel (acc.set (String.mk ks) v) r4
            | '\x7d' :: r4 => some (.obj (acc.set (String.mk ks) v), r4)
            | _ => none
          | none => none
        | _ => none
      | none => none
    | _ => none
  termination_by structural fuel _ _ => fuel

/-- Parse array elements. -/
def parseElems : ℕ → List Char → Option (JsonArr × List Char)
  | 0, _ => none
  | fuel + 1, cs =>
    match parseVal fuel cs with
    | some (v, r) =>
      match skipWs r with
      | ',' :: r2 =>
        match parseElems fuel r2 with
        | some (xs, r3) => some (.cons v xs, r3)
        | none => none
      | ']' :: r2 => some (.cons v .nil, r2)
      | _ => none
    | none => none
  termination_by structural fuel _ => fuel

end

/-- Python `json.loads`: parse a whole document, rejecting trailing
garbage. -/
def json_loads (s : String) : Option Json :=
  match parseVal (2 * s.length + 2) s.data with
  | some (v, rest) => if (skipWs rest).isEmpty then some v else none
  | none => none

def hexDigit (n : ℕ) : Char :=
  if n < 10 then Char.ofNat (48 + n) else Char.ofNat (87 + n)

def hex4 (n : ℕ) : List Char :=
  [hexDigit ((n >>> 12) % 16), hexDigit ((n >>> 8) % 16),
   hexDigit ((n >>> 4) % 16), hexDigit (n % 16)]

def uEscape (n : ℕ) : List Char := '\\' :: 'u' :: hex4 n

/-- Python json.dumps character escaping with ensure_ascii=True:
everything outside printable ASCII is escaped. -/
def escapeChar (c : Char) : List Char :=
  let n := c.toNat
  if c = '"' then ['\\', '"']
  else if c = '\\' then ['\\', '\\']
  else if c = '\n' then ['\\', 'n']
  else if c = '\t' then ['\\', 't']
  else if c = '\r' then ['\\', 'r']
  else if n = 8 then ['\\', 'b']
  else if n = 12 then ['\\', 'f']
  else if n < 0x20 then uEscape n
  else if n < 0x7f then [c]
  else if n < 0x10000 then uEscape n
  else
    uEscape (0xd800 + ((n - 0x10000) >>> 10)) ++ uEscape (0xdc00 + ((n - 0x10000) &&& 0x3ff))

def dumpStrChars (s : String) : List Char :=
  '"' :: s.data.foldr (fun c acc => escapeChar c ++ acc) ['"']

/-- Scale a rational by the smallest power of ten (up to the fuel) that
makes it an integer; parsed JSON literals always have a power-of-ten
denominator, so the fuel is never exhausted on reachable values. -/
def ratScale : ℕ → ℚ → Option (ℕ × ℚ)
  | 0, q => if q.den = 1 then some (0, q) else none
  | f + 1, q =>
    if q.den = 1 then some (0, q)
    else
      match ratScale f (q * 10) with
      | some (k, s) => some (k + 1, s)
      | none => none

/-- Render a Python number the way repr does for values in the plain
(non-scientific) range: ints without a decimal point, floats in minimal
exact decimal notation with at least one fractional digit. -/
def dumpNumChars (isInt : Bool) (q : ℚ) : List Char :=
  let sign : List Char := if q < 0 then ['-'] else []
  let aq : ℚ := |q|
  if isInt then sign ++ (toString aq.num.natAbs).data
  else
    match ratScale 64 aq with
    | some (0, s) => sign ++ (toString s.num.natAbs).data ++ ['.', '0']
    | some (k, s) =>
      let ds0 := (toString s.num.natAbs).data
      let ds := if ds0.length ≤ k then List.replicate (k + 1 - ds0.length) '0' ++ ds0 else ds0
      sign ++ ds.take (ds.length - k) ++ '.' :: ds.drop (ds.length - k)
    | none => sign ++ (toString aq.num.natAbs).data ++ '/' :: (toString aq.den).data

mutual

/-- json.dumps with the default separators (", " between items, ": "
after keys), as characters. -/
def Json.dump : Json → List Char
  | .null => "null".data
  | .bool true => "true".data
  | .bool false => "false".data
  | .num i q => dumpNumChars i q
  | .str s => dumpStrChars s
  | .arr .nil => ['[', ']']
  | .arr (.cons x xs) => '[' :: (Json.dump x ++ JsonArr.dump xs ++ [']'])
  | .obj .nil => ['\x7b', '\x7d']
  | .obj (.cons k v tl) =>
      '\x7b' :: (dumpStrChars k ++ ':' :: ' ' :: Json.dump v ++ JsonObj.dump tl ++ ['\x7d'])
  termination_by structural j => j

def JsonArr.dump : JsonArr → List Char
  | .nil => []
  | .cons x xs => ',' :: ' ' :: (Json.dump x ++ JsonArr.dump xs)
  termination_by structural l => l

def JsonObj.dump : JsonObj → List Char
  | .nil => []
  | .cons k v tl => ',' :: ' ' :: (dumpStrChars k ++ ':' :: ' ' :: Json.dump v ++ JsonObj.dump tl)
  termination_by structural l => l

end

/-- Python `json.dumps` with default options. -/
def json_dumps (j : Json) : String := String.mk j.dump

/-- Codec sanity: a compact document parses, and re-serialising it
inserts the default separators (so dumps-of-loads is not the identity
on strings). -/
theorem json_codec_sanity :
    json_loads "\x7b\"a\":[1,2.50,true,null],\"b\":\"x\"\x7d" =
      some (.obj (.cons "a"
        (.arr (.cons (.num true 1) (.cons (.num false (5/2))
          (.cons (.bool true) (.cons .null .nil))))) (.cons "b" (.str "x") .nil))) ∧
    json_dumps (.obj (.cons "a"
        (.arr (.cons (.num true 1) (.cons (.num false (5/2))
          (.cons (.bool true) (.cons .null .nil))))) (.cons "b" (.str "x") .nil))) =
      "\x7b\"a\": [1, 2.5, true, null], \"b\": \"x\"\x7d" := by
  constructor
  · decide
  · decide

/-! ## The relational writer (`write_db` in main.py) -/

/-- A row of `tx_raw(txn_id, amount, merchant_id, ts, payload)`.  The SQL
parameters are the raw JSON values bound by psycopg2; `payload` is the
string `json.dumps(tx)`. -/
structure RawRow where
  txn_id : Json
  amount : Json
  merchant_id : Json
  ts : Json
  payload : String
  deriving DecidableEq

/-- A row of `tx_scored(txn_id, ts, amount, merchant_id, score, features)`. -/
structure ScoredRow where
  txn_id : Json
  ts : Json
  amount : Json
  merchant_id : Json
  score : ℚ
  features : String
  deriving DecidableEq

/-- The two Postgres tables, rows in insertion order. -/
structure DB where
  tx_raw : List RawRow
  tx_scored : List ScoredRow
  deriving DecidableEq

def emptyDB : DB := ⟨[], []⟩

/-- Model of `INSERT INTO tx_raw ... ON CONFLICT DO NOTHING`: skip when a row
with the same primary-key value already exists. -/
def insertRaw (db : DB) (r : RawRow) : DB :=
  if db.tx_raw.any (fun x => x.txn_id == r.txn_id) then db
  else { db with tx_raw := db.tx_raw ++ [r] }

/-- Model of `INSERT INTO tx_scored ... ON CONFLICT DO NOTHING`. -/
def insertScored (db : DB) (r : ScoredRow) : DB :=
  if db.tx_scored.any (fun x => x.txn_id == r.txn_id) then db
  else { db with tx_scored := db.tx_scored ++ [r] }

/-- Number of live rows in tx_raw with a given txn_id. -/
def rawCount (db : DB) (id : Json) : ℕ :=
  db.tx_raw.countP (fun x => x.txn_id == id)

/-- Number of live rows in tx_scored with a given txn_id. -/
def scoredCount (db : DB) (id : Json) : ℕ :=
  db.tx_scored.countP (fun x => x.txn_id == id)

/-- Which of the (up to four) cursor.execute calls of one `write_db`
call raise psycopg2.OperationalError: one flag per insert per attempt.
External nondeterminism, injected explicitly. -/
structure FaultSched where
  a1raw : Bool
  a1scored : Bool
  a2raw : Bool
  a2scored : Bool
  deriving DecidableEq

def noFaults : FaultSched := ⟨false, false, false, false⟩

/-- Outcome of `write_db`: normal return (with the number of reconnects
performed), a KeyError from evaluating the parameter tuple (not caught
by the `except OperationalError` handler), or an OperationalError that
escaped after the single reconnect-and-replay. -/
inductive DbOutcome where
  | ok (db : DB) (reconnects : ℕ)
  | keyError (db : DB)
  | connError (db : DB) (reconnects : ℕ)
  deriving DecidableEq

/-- One attempt at the two-insert unit.  The connection is in autocommit
mode, so an execute that raises leaves its own statement unapplied while
earlier statements stay committed (`Except.error` carries the partial
state). -/
def attemptUnit (tx : Json) (s : ℚ) (rfail sfail : Bool) (db : DB)
    (id am mi ts : Json) : Except DB DB :=
  if rfail then .error db
  else
    let db1 := insertRaw db ⟨id, am, mi, ts, json_dumps tx⟩
    if sfail then .error db1
    else .ok (insertScored db1
      ⟨id, ts, am, mi, s, json_dumps (.obj (.cons "model" (.str MODEL_VERSION) .nil))⟩)

/-- Python `write_db(tx, s)` from main.py: evaluate the field accesses, attempt
the two inserts, and on OperationalError reconnect once and replay the
full unit; a failure of the replay propagates. -/
def write_db (tx : Json) (s : ℚ) (db : DB) (f : FaultSched) : DbOutcome :=
  match tx.lookup "txn_id", tx.lookup "amount", tx.lookup "merchant_id", tx.lookup "ts" with
  | some id, some am, some mi, some ts =>
    match attemptUnit tx s f.a1raw f.a1scored db id am mi ts with
    | .ok db1 => .ok db1 0
    | .error dbp =>
      match attemptUnit tx s f.a2raw f.a2scored dbp id am mi ts with
      | .ok db2 => .ok db2 1
      | .error dbp2 => .connError dbp2 1
  | _, _, _, _ => .keyError db

/-! ## The consumer loop (`consumer_loop` in main.py), one poll cycle -/

/-- An SQS message as delivered: MessageId, ReceiptHandle, Body. -/
structure SqsMsg where
  msgId : String
  receiptHandle : String
  body : String
  deriving DecidableEq

/-- The external conditions one message runs under: the fault schedule
of its `write_db` call and whether its `s3.put_object` succeeds. -/
structure MsgEnv where
  dbFaults : FaultSched
  s3Ok : Bool
  deriving DecidableEq

/-- Everything allowed to happen. -/
def goodEnv : MsgEnv := ⟨noFaults, true⟩

/-- Observable effects of one poll cycle, in order. -/
inductive Event where
  | dbPersisted (msgId : String)
  | archived (msgId : String)
  | errorLog (msgId : String)
  | ackBatch (entries : List (String × String))
  | processedLog (n : ℕ)
  | heartbeat
  deriving DecidableEq

/-- Result of the per-message try block. -/
structure MsgResult where
  db : DB
  events : List Event
  entry : Option (String × String)
  deriving DecidableEq

/-- The body of `for m in msgs: try ... except`: parse, score, persist,
archive; any stage's exception is caught, logged, and leaves the message
out of `to_delete`. -/
def processMsg (db : DB) (m : SqsMsg) (env : MsgEnv) : MsgResult :=
  match json_loads m.body with
  | none => ⟨db, [.errorLog m.msgId], none⟩
  | some tx =>
    match score tx with
    | none => ⟨db, [.errorLog m.msgId], none⟩
    | some s =>
      match write_db tx s db env.dbFaults with
      | .keyError db1 => ⟨db1, [.errorLog m.msgId], none⟩
      | .connError db1 _ => ⟨db1, [.errorLog m.msgId], none⟩
      | .ok db1 _ =>
        if env.s3Ok then
          ⟨db1, [.dbPersisted m.msgId, .archived m.msgId],
            some (m.msgId, m.receiptHandle)⟩
        else
          ⟨db1, [.dbPersisted m.msgId, .errorLog m.msgId], none⟩

/-- Process a batch message by message, threading the database and
collecting `to_delete` in order. -/
def processBatch (db : DB) :
    List (SqsMsg × MsgEnv) → DB × List Event × List (String × String)
  | [] => (db, [], [])
  | (m, env) :: rest =>
    let r := processMsg db m env
    let p := processBatch r.db rest
    (p.1, r.events ++ p.2.1,
      match r.entry with
      | some e => e :: p.2.2
      | none => p.2.2)

/-- Result of one poll cycle. -/
structure CycleResult where
  db : DB
  idleTicks : ℕ
  events : List Event
  acked : List (String × String)
  deriving DecidableEq

/-- One iteration of `consumer_loop`'s while body for a given received
batch: an empty batch bumps the idle counter (heartbeat every 10th idle
cycle) and skips; otherwise the counter resets, every message is
attempted, and `delete_message_batch` fires once iff `to_delete` is
non-empty. -/
def consumer_cycle (db : DB) (idleTicks : ℕ)
    (batch : List (SqsMsg × MsgEnv)) : CycleResult :=
  match batch with
  | [] =>
    let t := idleTicks + 1
    ⟨db, t, if t % 10 = 0 then [.heartbeat] else [], []⟩
  | _ :: _ =>
    let p := processBatch db batch
    if p.2.2.isEmpty then ⟨p.1, 0, p.2.1, []⟩
    else ⟨p.1, 0, p.2.1 ++ [.ackBatch p.2.2, .processedLog p.2.2.length], p.2.2⟩

/-- Run several consecutive poll cycles, returning the per-cycle event
lists. -/
def runCycles (db : DB) (idleTicks : ℕ) :
    List (List (SqsMsg × MsgEnv)) → DB × ℕ × List (List Event)
  | [] => (db, idleTicks, [])
  | b :: bs =>
    let r := consumer_cycle db idleTicks b
    let p := runCycles r.db r.idleTicks bs
    (p.1, p.2.1, r.events :: p.2.2)

/-- All four stages of one message succeed under its environment; the
per-stage outcome of `write_db` does not depend on the database state,
so this is a function of the message and its environment alone. -/
def msgSucceeds (m : SqsMsg) (env : MsgEnv) : Bool :=
  match json_loads m.body with
  | none => false
  | some tx =>
    match score tx with
    | none => false
    | some s =>
      match write_db tx s emptyDB env.dbFaults with
      | .ok _ _ => env.s3Ok
      | _ => false

/-- Is an event the batch acknowledgment call? -/
def isAckBatch : Event → Bool
  | .ackBatch _ => true
  | _ => false

/-- Count heartbeat events. -/
def countHeartbeats (evs : List Event) : ℕ :=
  evs.countP (fun e => e == .heartbeat)


/-! ## Generic facts about the embedded operations -/

theorem rawAny_iff (db : DB) (id : Json) :
    db.tx_raw.any (fun x => x.txn_id == id) = true ↔ 0 < rawCount db id := by
  simp [rawCount, List.any_eq_true, List.countP_pos_iff]

theorem scoredAny_iff (db : DB) (id : Json) :
    db.tx_scored.any (fun x => x.txn_id == id) = true ↔ 0 < scoredCount db id := by
  simp [scoredCount, List.any_eq_true, List.countP_pos_iff]

theorem insertRaw_tx_scored (db : DB) (r : RawRow) :
    (insertRaw db r).tx_scored = db.tx_scored := by
  unfold insertRaw; split <;> rfl

theorem insertScored_tx_raw (db : DB) (r : ScoredRow) :
    (insertScored db r).tx_raw = db.tx_raw := by
  unfold insertScored; split <;> rfl

theorem rawCount_insertRaw_new (db : DB) (r : RawRow) (h : rawCount db r.txn_id = 0) :
    rawCount (insertRaw db r) r.txn_id = 1 := by
  have hany : db.tx_raw.any (fun x => x.txn_id == r.txn_id) = false := by
    rw [← Bool.not_eq_true, rawAny_iff]; omega
  unfold insertRaw
  rw [hany]
  simp [rawCount, List.countP_append] at h ⊢
  simpa [List.countP_cons] using h

theorem insertRaw_noop (db : DB) (r : RawRow) (h : 0 < rawCount db r.txn_id) :
    insertRaw db r = db := by
  unfold insertRaw
  rw [(rawAny_iff db r.txn_id).mpr h]
  rfl

theorem scoredCount_insertScored_new (db : DB) (r : ScoredRow)
    (h : scoredCount db r.txn_id = 0) :
    scoredCount (insertScored db r) r.txn_id = 1 := by
  have hany : db.tx_scored.any (fun x => x.txn_id == r.txn_id) = false := by
    rw [← Bool.not_eq_true, scoredAny_iff]; omega
  unfold insertScored
  rw [hany]
  simp [scoredCount, List.countP_append] at h ⊢
  simpa [List.countP_cons] using h

theorem insertScored_noop (db : DB) (r : ScoredRow) (h : 0 < scoredCount db r.txn_id) :
    insertScored db r = db := by
  unfold insertScored
  rw [(scoredAny_iff db r.txn_id).mpr h]
  rfl

theorem rawCount_insertScored (db : DB) (r : ScoredRow) (id : Json) :
    rawCount (insertScored db r) id = rawCount db id := by
  simp [rawCount, insertScored_tx_raw]

theorem scoredCount_insertRaw (db : DB) (r : RawRow) (id : Json) :
    scoredCount (insertRaw db r) id = scoredCount db id := by
  simp [scoredCount, insertRaw_tx_scored]

theorem rawCount_insertRaw_pos (db : DB) (r : RawRow) :
    0 < rawCount (insertRaw db r) r.txn_id := by
  by_cases h : 0 < rawCount db r.txn_id
  · rwa [insertRaw_noop db r h]
  · have h0 : rawCount db r.txn_id = 0 := by omega
    rw [rawCount_insertRaw_new db r h0]
    omega

theorem scoredCount_insertScored_pos (db : DB) (r : ScoredRow) :
    0 < scoredCount (insertScored db r) r.txn_id := by
  by_cases h : 0 < scoredCount db r.txn_id
  · rwa [insertScored_noop db r h]
  · have h0 : scoredCount db r.txn_id = 0 := by omega
    rw [scoredCount_insertScored_new db r h0]
    omega

/-! ## Claim C3: idempotent dual persistence -/

/-- Claim C3: For every transaction, persisting twice with the same
`txn_id` (any scores) leaves exactly one row in each table: the first
call inserts both rows, the second call is a silent no-op per table — it
returns success without touching the database — so the store never ends
up with two live rows for the `txn_id`. -/
theorem persist_idempotent (tx : Json) (s1 s2 : ℚ) (db : DB) (id am mi ts : Json)
    (hid : tx.lookup "txn_id" = some id)
    (ham : tx.lookup "amount" = some am)
    (hmi : tx.lookup "merchant_id" = some mi)
    (hts : tx.lookup "ts" = some ts)
    (h0r : rawCount db id = 0) (h0s : scoredCount db id = 0) :
    ∃ db1, write_db tx s1 db noFaults = .ok db1 0 ∧
      write_db tx s2 db1 noFaults = .ok db1 0 ∧
      rawCount db1 id = 1 ∧ scoredCount db1 id = 1 := by
  have hok : ∀ s : ℚ, ∀ d : DB, write_db tx s d noFaults =
      .ok (insertScored (insertRaw d ⟨id, am, mi, ts, json_dumps tx⟩)
        ⟨id, ts, am, mi, s,
          json_dumps (.obj (.cons "model" (.str MODEL_VERSION) .nil))⟩) 0 := by
    intro s d
    simp only [write_db, hid, ham, hmi, hts, noFaults, attemptUnit, Bool.false_eq_true,
      if_false]
  refine ⟨_, hok s1 db, ?_, ?_, ?_⟩
  case refine_2 =>
    rw [rawCount_insertScored]
    exact rawCount_insertRaw_new db _ h0r
  case refine_3 =>
    rw [scoredCount_insertScored_new]
    rw [scoredCount_insertRaw]
    exact h0s
  case refine_1 =>
    rw [hok s2]
    have hraw1 : rawCount (insertScored (insertRaw db ⟨id, am, mi, ts, json_dumps tx⟩)
        ⟨id, ts, am, mi, s1,
          json_dumps (.obj (.cons "model" (.str MODEL_VERSION) .nil))⟩) id = 1 := by
      rw [rawCount_insertScored]
      exact rawCount_insertRaw_new db _ h0r
    have hsc1 : 0 < scoredCount (insertScored (insertRaw db ⟨id, am, mi, ts, json_dumps tx⟩)
        ⟨id, ts, am, mi, s1,
          json_dumps (.obj (.cons "model" (.str MODEL_VERSION) .nil))⟩) id :=
      scoredCount_insertScored_pos _ _
    rw [insertRaw_noop _ _ (by rw [hraw1]; omega)]
    rw [insertScored_noop _ _ hsc1]

/-- A concrete well-formed transaction (as parsed from a queue body). -/
def txSample : Json :=
  .obj (.cons "txn_id" (.str "t1") (.cons "amount" (.num true 100)
    (.cons "merchant_id" (.str "m") (.cons "card_hash" (.str "k")
      (.cons "ts" (.str "T") .nil)))))

/-- Witness for C3 at `txSample`, two persists into an empty store. -/
theorem persist_idempotent_witness :
    (txSample.lookup "txn_id" = some (.str "t1") ∧ rawCount emptyDB (.str "t1") = 0 ∧
      scoredCount emptyDB (.str "t1") = 0) ∧
    ∃ db1, write_db txSample 1 emptyDB noFaults = .ok db1 0 ∧
      write_db txSample 1 db1 noFaults = .ok db1 0 ∧
      rawCount db1 (.str "t1") = 1 ∧ scoredCount db1 (.str "t1") = 1 :=
  ⟨⟨by decide, by decide, by decide⟩,
    persist_idempotent txSample 1 1 emptyDB (.str "t1") (.num true 100) (.str "m") (.str "T")
      (by decide) (by decide) (by decide) (by decide) (by decide) (by decide)⟩

/-! ## Claim C4: one reconnect, full replay, propagation on double failure -/

/-- Claim C4: If the first attempt of the two-insert unit raises
OperationalError, `write_db` reconnects exactly once and replays the
full unit: when the replay runs clean it returns success with one
reconnect and both rows present; when the replay also fails the
OperationalError propagates (as `connError`, still after exactly one
reconnect), and a message whose persist call behaves this way is never
added to the acknowledgment set. -/
theorem persist_reconnect (tx : Json) (s : ℚ) (db : DB) (f : FaultSched) (id am mi ts : Json)
    (hid : tx.lookup "txn_id" = some id)
    (ham : tx.lookup "amount" = some am)
    (hmi : tx.lookup "merchant_id" = some mi)
    (hts : tx.lookup "ts" = some ts)
    (h1 : f.a1raw = true ∨ f.a1scored = true) :
    ((f.a2raw = false ∧ f.a2scored = false) →
      ∃ db', write_db tx s db f = .ok db' 1 ∧
        0 < rawCount db' id ∧ 0 < scoredCount db' id) ∧
    ((f.a2raw = true ∨ f.a2scored = true) →
      (∃ db', write_db tx s db f = .connError db' 1) ∧
      ∀ (db2 : DB) (m : SqsMsg) (env : MsgEnv), env.dbFaults = f →
        json_loads m.body = some tx → (processMsg db2 m env).entry = none) := by
  obtain ⟨a, b, c, d⟩ := f
  simp only at h1
  constructor
  · rintro ⟨hc, hd⟩
    simp only at hc hd
    subst hc hd
    cases a <;> cases b
    · rcases h1 with h | h <;> simp at h
    all_goals
      simp only [write_db, hid, ham, hmi, hts, attemptUnit, if_true,
        Bool.false_eq_true, if_false]
    all_goals
      refine ⟨_, rfl, ?_, ?_⟩
    all_goals
      first
      | (rw [rawCount_insertScored]; exact rawCount_insertRaw_pos _ _)
      | (exact scoredCount_insertScored_pos _ _)
  · intro h2
    simp only at h2
    have hcw : ∀ (s2 : ℚ) (d2 : DB), ∃ x,
        write_db tx s2 d2 ⟨a, b, c, d⟩ = .connError x 1 := by
      intro s2 d2
      cases a <;> cases b <;> cases c <;> cases d <;>
        first
        | (rcases h1 with h | h <;> exact absurd h (by decide))
        | (rcases h2 with h3 | h3 <;> exact absurd h3 (by decide))
        | (simp only [write_db, hid, ham, hmi, hts, attemptUnit, if_true,
            Bool.false_eq_true, if_false]; exact ⟨_, rfl⟩)
    refine ⟨hcw s db, ?_⟩
    intro db2 m env henv hparse
    simp only [processMsg, hparse]
    cases hs : score tx with
    | none => rfl
    | some v =>
      obtain ⟨x, hx⟩ := hcw v db2
      dsimp only
      rw [henv, hx]

/-- Witness for C4 at `txSample`: fault on the first raw insert only;
the replay succeeds with exactly one reconnect and both rows present. -/
theorem persist_reconnect_witness :
    (txSample.lookup "txn_id" = some (.str "t1") ∧
      (⟨true, false, false, false⟩ : FaultSched).a1raw = true) ∧
    ∃ db', write_db txSample 1 emptyDB ⟨true, false, false, false⟩ = .ok db' 1 ∧
      0 < rawCount db' (.str "t1") ∧ 0 < scoredCount db' (.str "t1") :=
  ⟨⟨by decide, rfl⟩,
    (persist_reconnect txSample 1 emptyDB ⟨true, false, false, false⟩
      (.str "t1") (.num true 100) (.str "m") (.str "T")
      (by decide) (by decide) (by decide) (by decide) (Or.inl rfl)).1 ⟨rfl, rfl⟩⟩

/-! ## The scorer: claims C5, C6, C9, C10 -/

/-- Evaluation of `score` on a transaction whose `card_hash` is a string
and whose `amount` is a number. -/
theorem score_eq_of_lookups (tx : Json) (ch : String) (bi : Bool) (a : ℚ)
    (hch : tx.lookup "card_hash" = some (.str ch))
    (ha : tx.lookup "amount" = some (.num bi a)) :
    score tx = some (min 1 ((3 : ℚ) / 10 * (a / 500) +
      7 / 10 * (((sha256Nat (strBytes ch) % 100 : ℕ) : ℚ) / 100))) := by
  simp only [score, hch, ha, Option.some_bind, jsonAsPyNumber]

/-- Claim C5: On any transaction carrying a string `card_hash` and a
numeric `amount ≥ 0`, `score` returns a value (total on well-formed
input — determinism and purity are immediate for a function) and that
value lies in the closed interval [0, 1]. -/
theorem score_bounded (tx : Json) (ch : String) (bi : Bool) (a : ℚ)
    (hch : tx.lookup "card_hash" = some (.str ch))
    (ha : tx.lookup "amount" = some (.num bi a))
    (h0 : 0 ≤ a) :
    ∃ s, score tx = some s ∧ 0 ≤ s ∧ s ≤ 1 := by
  refine ⟨_, score_eq_of_lookups tx ch bi a hch ha, ?_, min_le_left _ _⟩
  have t1 : (0 : ℚ) ≤ 3 / 10 * (a / 500) :=
    mul_nonneg (by norm_num) (div_nonneg h0 (by norm_num))
  have t2 : (0 : ℚ) ≤ 7 / 10 * (((sha256Nat (strBytes ch) % 100 : ℕ) : ℚ) / 100) := by
    positivity
  exact le_min (by norm_num) (add_nonneg t1 t2)

/-- Witness for C5 at `txSample` (card_hash "k", amount 100). -/
theorem score_bounded_witness :
    (txSample.lookup "card_hash" = some (.str "k") ∧ (0 : ℚ) ≤ 100) ∧
    ∃ s, score txSample = some s ∧ 0 ≤ s ∧ s ≤ 1 :=
  ⟨⟨by decide, by norm_num⟩,
    score_bounded txSample "k" true 100 (by decide) (by decide) (by norm_num)⟩

/-- Claim C9: The score reads only `card_hash` and `amount`: two
transactions agreeing on those two lookups get the same score whatever
their other fields hold. -/
theorem score_depends_only_on_card_hash_amount (tx1 tx2 : Json)
    (hch : tx1.lookup "card_hash" = tx2.lookup "card_hash")
    (ha : tx1.lookup "amount" = tx2.lookup "amount") :
    score tx1 = score tx2 := by
  unfold score
  rw [hch, ha]

/-- A transaction agreeing with `txSample` on `card_hash` and `amount`
but differing in `txn_id`, `merchant_id` and `ts`. -/
def txSampleAlt : Json :=
  .obj (.cons "txn_id" (.str "zz") (.cons "amount" (.num true 100)
    (.cons "merchant_id" (.str "other") (.cons "card_hash" (.str "k")
      (.cons "ts" (.str "U") (.cons "extra" .null .nil))))))

/-- Witness for C9: `txSample` vs `txSampleAlt`. -/
theorem score_depends_only_witness :
    (txSample.lookup "card_hash" = txSampleAlt.lookup "card_hash" ∧
      txSample.lookup "txn_id" ≠ txSampleAlt.lookup "txn_id") ∧
    score txSample = score txSampleAlt :=
  ⟨⟨by decide, by decide⟩,
    score_depends_only_on_card_hash_amount txSample txSampleAlt (by decide) (by decide)⟩

/-- Claim C10: For a fixed `card_hash`, the score is monotone
non-decreasing in the amount over amounts ≥ 0. -/
theorem score_monotone_amount (tx1 tx2 : Json) (ch : String) (b1 b2 : Bool) (a1 a2 : ℚ)
    (hch1 : tx1.lookup "card_hash" = some (.str ch))
    (hch2 : tx2.lookup "card_hash" = some (.str ch))
    (ha1 : tx1.lookup "amount" = some (.num b1 a1))
    (ha2 : tx2.lookup "amount" = some (.num b2 a2))
    (_h0 : 0 ≤ a1) (hle : a1 ≤ a2) :
    ∃ s1 s2, score tx1 = some s1 ∧ score tx2 = some s2 ∧ s1 ≤ s2 := by
  refine ⟨_, _, score_eq_of_lookups tx1 ch b1 a1 hch1 ha1,
    score_eq_of_lookups tx2 ch b2 a2 hch2 ha2, ?_⟩
  apply min_le_min le_rfl
  gcongr

/-- A transaction like `txSample` but with amount 1000 (above the
spec's claimed 500 cap). -/
def txLarge : Json :=
  .obj (.cons "txn_id" (.str "t2") (.cons "amount" (.num true 1000)
    (.cons "merchant_id" (.str "m") (.cons "card_hash" (.str "k")
      (.cons "ts" (.str "T") .nil)))))

/-- Witness for C10: amounts 100 ≤ 1000 under card_hash "k". -/
theorem score_monotone_witness :
    ((0 : ℚ) ≤ 100 ∧ (100 : ℚ) ≤ 1000) ∧
    ∃ s1 s2, score txSample = some s1 ∧ score txLarge = some s2 ∧ s1 ≤ s2 :=
  ⟨⟨by norm_num, by norm_num⟩,
    score_monotone_amount txSample txLarge "k" true true 100 1000
      (by decide) (by decide) (by decide) (by decide) (by norm_num) (by norm_num)⟩

/-! ## Claim C6: the exact scoring formula (the spec's cap is wrong) -/

/-- Modelled from the spec (§4.1), for comparison with the code: the
claim's formula caps the amount at 500 before forming the 30% component,
so amounts above 500 contribute exactly what 500 does. -/
def score_spec (tx : Json) : Option ℚ :=
  match tx.lookup "card_hash", (tx.lookup "amount").bind jsonAsPyNumber with
  | some (.str ch), some a =>
      let h : ℕ := sha256Nat (strBytes ch) % 100
      some (min 1 ((3 : ℚ) / 10 * (min a 500 / 500) + 7 / 10 * ((h : ℚ) / 100)))
  | _, _ => none

/-- Claim C6, counterexample: At card_hash "k" (hash bucket 6) and amount
1000 the code scores 0.642 = 321/500 — the uncapped amount ratio 1000/500
contributes 0.6 — while the claimed capped formula gives 0.342 = 171/500;
the two disagree, so the score does not equal the claimed formula. -/
theorem score_cap_counterexample :
    score txLarge = some (321 / 500) ∧ score_spec txLarge = some (171 / 500) ∧
    score txLarge ≠ score_spec txLarge :=
  ⟨by decide, by decide, by decide⟩

/-- Claim C6, amended: The score is min(1, 0.3·(amount/500) + 0.7·(h/100))
where h is the SHA-256 bucket of `card_hash`: the amount is NOT capped at
500 before weighting — only the final value is clamped at 1.0, so amounts
above 500 keep growing the amount component until the clamp binds. -/
theorem score_formula (tx : Json) (ch : String) (bi : Bool) (a : ℚ)
    (hch : tx.lookup "card_hash" = some (.str ch))
    (ha : tx.lookup "amount" = some (.num bi a)) :
    score tx = some (min 1 ((3 : ℚ) / 10 * (a / 500) +
      7 / 10 * (((sha256Nat (strBytes ch) % 100 : ℕ) : ℚ) / 100))) :=
  score_eq_of_lookups tx ch bi a hch ha

/-- Witness for the amended C6 at `txLarge`. -/
theorem score_formula_witness :
    (txLarge.lookup "card_hash" = some (.str "k")) ∧
    score txLarge = some (min 1 ((3 : ℚ) / 10 * (1000 / 500) +
      7 / 10 * (((sha256Nat (strBytes "k") % 100 : ℕ) : ℚ) / 100))) :=
  ⟨by decide, score_formula txLarge "k" true 1000 (by decide) (by decide)⟩

/-! ## Consumer-loop facts -/

/-- Classify a `write_db` outcome, forgetting the database. -/
def DbOutcome.tag : DbOutcome → ℕ
  | .ok _ _ => 0
  | .keyError _ => 1
  | .connError _ _ => 2

/-- Which way `write_db` exits depends only on the transaction and the
fault schedule, never on the database contents (conflicting inserts are
silent no-ops, not errors). -/
theorem write_db_tag_const (tx : Json) (s : ℚ) (f : FaultSched) (db db2 : DB) :
    (write_db tx s db f).tag = (write_db tx s db2 f).tag := by
  unfold write_db
  obtain ⟨a, b, c, d⟩ := f
  cases tx.lookup "txn_id" <;> cases tx.lookup "amount" <;>
    cases tx.lookup "merchant_id" <;> cases tx.lookup "ts" <;>
    first
    | rfl
    | (cases a <;> cases b <;> cases c <;> cases d <;>
        simp [attemptUnit, DbOutcome.tag])

/-- The per-message try block yields an ack entry exactly when all four
stages succeed. -/
theorem processMsg_entry (db : DB) (m : SqsMsg) (env : MsgEnv) :
    (processMsg db m env).entry =
      if msgSucceeds m env then some (m.msgId, m.receiptHandle) else none := by
  unfold processMsg msgSucceeds
  cases hp : json_loads m.body with
  | none => rfl
  | some tx =>
    dsimp only
    cases hs : score tx with
    | none => rfl
    | some sc =>
      dsimp only
      have htag := write_db_tag_const tx sc env.dbFaults db emptyDB
      cases h1 : write_db tx sc db env.dbFaults <;>
        cases h2 : write_db tx sc emptyDB env.dbFaults <;>
        rw [h1, h2] at htag <;> simp only [DbOutcome.tag] at htag <;>
        first
        | (exact absurd htag (by decide))
        | (cases env.s3Ok <;> rfl)

/-- The per-message try block never calls the batch acknowledgment. -/
theorem processMsg_no_ack (db : DB) (m : SqsMsg) (env : MsgEnv) :
    ∀ e ∈ (processMsg db m env).events, isAckBatch e = false := by
  unfold processMsg
  cases json_loads m.body with
  | none => intro e he; simp at he; subst he; rfl
  | some tx =>
    dsimp only
    cases score tx with
    | none => intro e he; simp at he; subst he; rfl
    | some sc =>
      dsimp only
      cases write_db tx sc db env.dbFaults <;> cases henv : env.s3Ok <;>
        intro e he <;> simp at he <;>
        first
        | (subst he; rfl)
        | (rcases he with rfl | rfl <;> rfl)

/-- A fully successful message leaves the persist and archive events (in
that order) as its trace. -/
theorem processMsg_events_of_succeeds (db : DB) (m : SqsMsg) (env : MsgEnv)
    (hs : msgSucceeds m env = true) :
    (processMsg db m env).events = [.dbPersisted m.msgId, .archived m.msgId] := by
  unfold msgSucceeds at hs
  unfold processMsg
  cases hp : json_loads m.body with
  | none => rw [hp] at hs; dsimp only at hs; exact absurd hs (by decide)
  | some tx =>
    rw [hp] at hs
    dsimp only at hs ⊢
    cases hsc : score tx with
    | none => rw [hsc] at hs; dsimp only at hs; exact absurd hs (by decide)
    | some sc =>
      rw [hsc] at hs
      dsimp only at hs ⊢
      have htag := write_db_tag_const tx sc env.dbFaults db emptyDB
      cases h1 : write_db tx sc db env.dbFaults <;>
        cases h2 : write_db tx sc emptyDB env.dbFaults <;>
        rw [h2] at hs <;> rw [h1, h2] at htag <;>
        simp only [DbOutcome.tag] at htag <;> dsimp only at hs ⊢ <;>
        first
        | (exact absurd htag (by decide))
        | (exact absurd hs (by decide))
        | (rw [hs]; rfl)

/-- The acknowledgment set collected over a batch is exactly the
messages whose four stages all succeeded, in batch order. -/
theorem processBatch_acked (db : DB) (batch : List (SqsMsg × MsgEnv)) :
    (processBatch db batch).2.2 =
      (batch.filter (fun p => msgSucceeds p.1 p.2)).map
        (fun p => (p.1.msgId, p.1.receiptHandle)) := by
  induction batch generalizing db with
  | nil => rfl
  | cons p rest ih =>
    obtain ⟨m, env⟩ := p
    dsimp only [processBatch]
    rw [processMsg_entry db m env, ih]
    cases hsucc : msgSucceeds m env <;>
      simp [List.filter_cons, hsucc]

/-- No per-message processing event is the batch acknowledgment. -/
theorem processBatch_no_ack (db : DB) (batch : List (SqsMsg × MsgEnv)) :
    ∀ e ∈ (processBatch db batch).2.1, isAckBatch e = false := by
  induction batch generalizing db with
  | nil => intro e he; simp [processBatch] at he
  | cons p rest ih =>
    obtain ⟨m, env⟩ := p
    intro e he
    dsimp only [processBatch] at he
    rw [List.mem_append] at he
    rcases he with he | he
    · exact processMsg_no_ack db m env e he
    · exact ih _ e he

/-- Every message of the batch that fully succeeded has its archive
event in the batch's processing trace. -/
theorem processBatch_archived (db : DB) (batch : List (SqsMsg × MsgEnv)) :
    ∀ p ∈ batch, msgSucceeds p.1 p.2 = true →
      Event.archived p.1.msgId ∈ (processBatch db batch).2.1 := by
  induction batch generalizing db with
  | nil => intro p hp; simp at hp
  | cons q rest ih =>
    obtain ⟨m, env⟩ := q
    intro p hp hsucc
    dsimp only [processBatch]
    rw [List.mem_append]
    rcases List.mem_cons.mp hp with rfl | hp
    · left
      rw [processMsg_events_of_succeeds db m env hsucc]
      simp
    · right
      exact ih _ p hp hsucc

/-! ## Claim C1: acknowledgment gating and batching -/

/-- Claim C1, amended: In every poll cycle: the batch acknowledgment call
fires at most once — exactly once when at least one message reached the
end of the pipeline, and not at all otherwise (in particular not on a
cycle whose messages all failed, where the spec's "exactly once per
poll cycle" breaks); when it fires it comes after every message of the
batch has been attempted, with each acknowledged message's archive
event strictly before it; and an entry joins the ack set only if its
message's JSON parse, scoring, relational persist and archive write all
succeeded. -/
theorem ack_batched_and_gated (db : DB) (t : ℕ) (batch : List (SqsMsg × MsgEnv)) :
    ((consumer_cycle db t batch).events.countP isAckBatch =
      if (consumer_cycle db t batch).acked = [] then 0 else 1) ∧
    ((consumer_cycle db t batch).acked ≠ [] →
      ∃ msgEvs, (consumer_cycle db t batch).events =
          msgEvs ++ [.ackBatch (consumer_cycle db t batch).acked,
            .processedLog (consumer_cycle db t batch).acked.length] ∧
        (∀ e ∈ msgEvs, isAckBatch e = false) ∧
        (∀ e ∈ (consumer_cycle db t batch).acked, Event.archived e.1 ∈ msgEvs)) ∧
    (∀ e ∈ (consumer_cycle db t batch).acked, ∃ p ∈ batch,
      e = (p.1.msgId, p.1.receiptHandle) ∧ msgSucceeds p.1 p.2 = true) := by
  cases batch with
  | nil =>
    refine ⟨?_, ?_, ?_⟩
    · dsimp only [consumer_cycle]
      split <;> rfl
    · intro h
      exact absurd rfl h
    · intro e he
      dsimp only [consumer_cycle] at he
      simp at he
  | cons q rest =>
    have hnoack := processBatch_no_ack db (q :: rest)
    have hacked := processBatch_acked db (q :: rest)
    have harch := processBatch_archived db (q :: rest)
    dsimp only [consumer_cycle]
    cases hemp : (processBatch db (q :: rest)).2.2.isEmpty with
    | true =>
      have hnil : (processBatch db (q :: rest)).2.2 = [] := List.isEmpty_iff.mp hemp
      rw [if_pos rfl]
      refine ⟨?_, ?_, ?_⟩
      · rw [if_pos rfl]
        exact List.countP_eq_zero.mpr (by intro e he; simpa using hnoack e he)
      · intro h
        exact absurd rfl h
      · intro e he
        simp at he
    | false =>
      have hne : (processBatch db (q :: rest)).2.2 ≠ [] := by
        intro h
        rw [h] at hemp
        simp at hemp
      rw [if_neg Bool.false_ne_true]
      refine ⟨?_, ?_, ?_⟩
      · rw [if_neg hne, List.countP_append]
        have h0 : (processBatch db (q :: rest)).2.1.countP isAckBatch = 0 :=
          List.countP_eq_zero.mpr (by intro e he; simpa using hnoack e he)
        rw [h0]
        simp [List.countP_cons, isAckBatch]
      · intro _
        refine ⟨(processBatch db (q :: rest)).2.1, rfl, ?_, ?_⟩
        · exact hnoack
        · intro e he
          rw [hacked] at he
          obtain ⟨p, hpfil, rfl⟩ := List.mem_map.mp he
          obtain ⟨hpmem, hpsucc⟩ := List.mem_filter.mp hpfil
          exact harch p hpmem (by simpa using hpsucc)
      · intro e he
        rw [hacked] at he
        obtain ⟨p, hpfil, rfl⟩ := List.mem_map.mp he
        obtain ⟨hpmem, hpsucc⟩ := List.mem_filter.mp hpfil
        exact ⟨p, hpmem, rfl, by simpa using hpsucc⟩

/-- A message whose body is not valid JSON. -/
def badMsg : SqsMsg := ⟨"9", "r9", "not json"⟩

/-- Claim C1, counterexample: A poll cycle with a (non-empty) batch whose
single message fails to parse performs zero acknowledgment calls, not
exactly one: `delete_message_batch` is skipped whenever `to_delete` is
empty. -/
theorem ack_exactly_once_counterexample :
    ([(badMsg, goodEnv)] ≠ ([] : List (SqsMsg × MsgEnv))) ∧
    (consumer_cycle emptyDB 0 [(badMsg, goodEnv)]).events.countP isAckBatch = 0 :=
  ⟨by decide, by decide⟩

/-- A well-formed queue body, txn_id "t<i>", amount 100, card_hash "k". -/
def goodBody (i : String) : String :=
  "\x7b\"txn_id\": \"t" ++ i ++
    "\", \"amount\": 100, \"merchant_id\": \"m\", \"card_hash\": \"k\", \"ts\": \"T\"\x7d"

/-- Witness for C1 (amended): a one-good-message cycle acks exactly once. -/
theorem ack_batched_witness :
    (consumer_cycle emptyDB 0 [(⟨"1", "r1", goodBody "1"⟩, goodEnv)]).acked ≠ [] ∧
    ∃ msgEvs, (consumer_cycle emptyDB 0 [(⟨"1", "r1", goodBody "1"⟩, goodEnv)]).events =
        msgEvs ++ [.ackBatch (consumer_cycle emptyDB 0
            [(⟨"1", "r1", goodBody "1"⟩, goodEnv)]).acked,
          .processedLog (consumer_cycle emptyDB 0
            [(⟨"1", "r1", goodBody "1"⟩, goodEnv)]).acked.length] ∧
      (∀ e ∈ msgEvs, isAckBatch e = false) ∧
      (∀ e ∈ (consumer_cycle emptyDB 0 [(⟨"1", "r1", goodBody "1"⟩, goodEnv)]).acked,
        Event.archived e.1 ∈ msgEvs) :=
  ⟨by decide,
    (ack_batched_and_gated emptyDB 0 [(⟨"1", "r1", goodBody "1"⟩, goodEnv)]).2.1 (by decide)⟩

/-! ## Claim C2: partial-batch isolation -/

/-- Five messages; message 2's `write_db` hits OperationalError on both
the first attempt and the replay, so its persistence fails. -/
def batchFive : List (SqsMsg × MsgEnv) :=
  [(⟨"1", "r1", goodBody "1"⟩, goodEnv),
   (⟨"2", "r2", goodBody "2"⟩, ⟨⟨true, true, true, true⟩, true⟩),
   (⟨"3", "r3", goodBody "3"⟩, goodEnv),
   (⟨"4", "r4", goodBody "4"⟩, goodEnv),
   (⟨"5", "r5", goodBody "5"⟩, goodEnv)]

/-- Claim C2: The acknowledgment set of a poll cycle is exactly the
batch's messages whose own stages all succeeded: a message failing at
any stage (malformed body, persistence error after retry, archive
error) is left out while every other message is still processed and
acknowledged — membership depends only on the message and its own
environment. In particular, for the concrete batch of five in which
message 2 fails persistence, the ack set is exactly {1, 3, 4, 5}. -/
theorem batch_isolation :
    (∀ (db : DB) (t : ℕ) (batch : List (SqsMsg × MsgEnv)),
      (consumer_cycle db t batch).acked =
        (batch.filter (fun p => msgSucceeds p.1 p.2)).map
          (fun p => (p.1.msgId, p.1.receiptHandle))) ∧
    (consumer_cycle emptyDB 0 batchFive).acked =
      [("1", "r1"), ("3", "r3"), ("4", "r4"), ("5", "r5")] := by
  constructor
  · intro db t batch
    cases batch with
    | nil => rfl
    | cons q rest =>
      dsimp only [consumer_cycle]
      cases hemp : (processBatch db (q :: rest)).2.2.isEmpty with
      | true =>
        rw [if_pos rfl]
        dsimp only
        rw [← processBatch_acked db (q :: rest)]
        exact (List.isEmpty_iff.mp hemp).symm
      | false =>
        rw [if_neg Bool.false_ne_true]
        exact processBatch_acked db (q :: rest)
  · decide

/-! ## Claim C7: idle heartbeat cadence -/

/-- Over a run of consecutive empty poll cycles the idle counter just
counts up from its starting value, and a heartbeat is printed exactly
at the cycles where it reaches a multiple of ten. -/
theorem runCycles_idle (n : ℕ) (db : DB) (t : ℕ) :
    (runCycles db t (List.replicate n [])).2.2 =
      (List.range n).map (fun i => if (t + i + 1) % 10 = 0 then [Event.heartbeat] else []) := by
  induction n generalizing db t with
  | zero => rfl
  | succ k ih =>
    rw [List.replicate_succ]
    dsimp only [runCycles, consumer_cycle]
    rw [ih db (t + 1)]
    rw [List.range_succ_eq_map, List.map_cons, List.map_map]
    refine List.cons_eq_cons.mpr ⟨by simp, List.map_congr_left ?_⟩
    intro i _
    have harith : t + 1 + i + 1 = t + (i + 1) + 1 := by omega
    simp only [Function.comp_apply]
    rw [harith]

/-- Claim C7: The idle counter resets to zero on any non-empty batch, and
over n consecutive empty poll cycles (counted from a reset counter) the
cycle trace shows a heartbeat exactly at every 10th idle cycle and at no
other; in particular 25 consecutive empty cycles emit exactly two
heartbeats, at idle cycles 10 and 20. -/
theorem idle_heartbeat_cadence :
    (∀ (db : DB) (t : ℕ) (m : SqsMsg) (env : MsgEnv) (rest : List (SqsMsg × MsgEnv)),
      (consumer_cycle db t ((m, env) :: rest)).idleTicks = 0) ∧
    (∀ (db : DB) (n : ℕ),
      (runCycles db 0 (List.replicate n [])).2.2 =
        (List.range n).map (fun i => if (i + 1) % 10 = 0 then [Event.heartbeat] else [])) ∧
    ((runCycles emptyDB 0 (List.replicate 25 [])).2.2.map countHeartbeats =
      [0, 0, 0, 0, 0, 0, 0, 0, 0, 1, 0, 0, 0, 0, 0, 0, 0, 0, 0, 1, 0, 0, 0, 0, 0]) := by
  refine ⟨?_, ?_, by decide⟩
  · intro db t m env rest
    dsimp only [consumer_cycle]
    split <;> rfl
  · intro db n
    rw [runCycles_idle n db 0]
    simp

/-! ## Claim C8: what lands in the payload column -/

theorem mem_insertRaw_self (db : DB) (r : RawRow) (h : rawCount db r.txn_id = 0) :
    r ∈ (insertRaw db r).tx_raw := by
  have hany : db.tx_raw.any (fun x => x.txn_id == r.txn_id) = false := by
    rw [← Bool.not_eq_true, rawAny_iff]
    omega
  unfold insertRaw
  rw [hany]
  simp

theorem mem_insertRaw_mono (db : DB) (r2 r : RawRow) (h : r ∈ db.tx_raw) :
    r ∈ (insertRaw db r2).tx_raw := by
  unfold insertRaw
  split
  · exact h
  · simp [h]

/-- Whenever `write_db` returns success on a transaction whose `txn_id`
had no row yet, the resulting raw table contains a row for it whose
payload is the re-serialisation `json.dumps(tx)` of the parsed record. -/
theorem write_db_ok_raw_mem (tx : Json) (s : ℚ) (db : DB) (f : FaultSched)
    (db1 : DB) (rc : ℕ) (id : Json)
    (hid : tx.lookup "txn_id" = some id)
    (h0 : rawCount db id = 0)
    (hw : write_db tx s db f = .ok db1 rc) :
    ∃ row ∈ db1.tx_raw, row.txn_id = id ∧ row.payload = json_dumps tx := by
  cases ham : tx.lookup "amount" with
  | none => simp only [write_db, hid, ham] at hw; exact absurd hw (by simp)
  | some am =>
  cases hmi : tx.lookup "merchant_id" with
  | none => simp only [write_db, hid, ham, hmi] at hw; exact absurd hw (by simp)
  | some mi =>
  cases hts : tx.lookup "ts" with
  | none => simp only [write_db, hid, ham, hmi, hts] at hw; exact absurd hw (by simp)
  | some ts =>
  obtain ⟨a, b, c, d⟩ := f
  cases a <;> cases b <;> cases c <;> cases d <;>
    simp only [write_db, hid, ham, hmi, hts, attemptUnit, if_true, Bool.false_eq_true,
      if_false, DbOutcome.ok.injEq, reduceCtorEq] at hw <;>
    refine ⟨⟨id, am, mi, ts, json_dumps tx⟩, ?_, rfl, rfl⟩ <;>
    rw [← hw.1, insertScored_tx_raw] <;>
    first
    | exact mem_insertRaw_self db _ h0
    | exact mem_insertRaw_mono _ _ _ (mem_insertRaw_self db _ h0)

/-- Claim C8, amended: For every successfully persisted message the
`payload` column of its raw row holds `json.dumps(tx)` — a JSON
re-serialisation of the parsed record (same fields and values), not
necessarily the byte-identical body string received from the queue. -/
theorem payload_reserialised (db : DB) (m : SqsMsg) (env : MsgEnv) (tx : Json) (id : Json)
    (hparse : json_loads m.body = some tx)
    (hid : tx.lookup "txn_id" = some id)
    (h0 : rawCount db id = 0)
    (hs : msgSucceeds m env = true) :
    ∃ row ∈ (processMsg db m env).db.tx_raw,
      row.txn_id = id ∧ row.payload = json_dumps tx := by
  unfold msgSucceeds at hs
  rw [hparse] at hs
  dsimp only at hs
  cases hsc : score tx with
  | none => rw [hsc] at hs; dsimp only at hs; exact absurd hs (by decide)
  | some sc =>
    rw [hsc] at hs
    dsimp only at hs
    unfold processMsg
    rw [hparse]
    dsimp only
    rw [hsc]
    dsimp only
    have htag := write_db_tag_const tx sc env.dbFaults db emptyDB
    cases h1 : write_db tx sc db env.dbFaults with
    | keyError d1 =>
      cases h2 : write_db tx sc emptyDB env.dbFaults <;> rw [h2] at hs <;>
        rw [h1, h2] at htag <;> simp [DbOutcome.tag] at htag hs
    | connError d1 r1 =>
      cases h2 : write_db tx sc emptyDB env.dbFaults <;> rw [h2] at hs <;>
        rw [h1, h2] at htag <;> simp [DbOutcome.tag] at htag hs
    | ok d1 r1 =>
      have hmem := write_db_ok_raw_mem tx sc db env.dbFaults d1 r1 id hid h0 h1
      cases env.s3Ok <;> dsimp only <;> exact hmem

/-- The same record as `goodBody "1"` serialised compactly (no spaces),
as a producer might send it. -/
def compactBody : String :=
  "\x7b\"txn_id\":\"t1\",\"amount\":100,\"merchant_id\":\"m\",\"card_hash\":\"k\",\"ts\":\"T\"\x7d"

/-- Claim C8, counterexample: A compactly-serialised body is processed and
acknowledged, but the payload stored in tx_raw is the re-serialisation
with Python's default separators — not the received body string, which
refutes "stored verbatim, byte for byte". -/
theorem payload_verbatim_counterexample :
    (consumer_cycle emptyDB 0 [(⟨"1", "r1", compactBody⟩, goodEnv)]).acked = [("1", "r1")] ∧
    (consumer_cycle emptyDB 0 [(⟨"1", "r1", compactBody⟩, goodEnv)]).db.tx_raw.map
      (fun r => r.payload) = [goodBody "1"] ∧
    goodBody "1" ≠ compactBody :=
  ⟨by decide, by decide, by decide⟩

/-- Witness for the amended C8: the compact body's stored payload is
`json_dumps` of its parse (`txSample`). -/
theorem payload_reserialised_witness :
    (json_loads compactBody = some txSample ∧ rawCount emptyDB (.str "t1") = 0) ∧
    ∃ row ∈ (processMsg emptyDB ⟨"1", "r1", compactBody⟩ goodEnv).db.tx_raw,
      row.txn_id = (.str "t1") ∧ row.payload = json_dumps txSample :=
  ⟨⟨by decide, by decide⟩,
    payload_reserialised emptyDB ⟨"1", "r1", compactBody⟩ goodEnv txSample (.str "t1")
      (by decide) (by decide) (by decide) (by decide)⟩
